import Mathlib

/-!
A shallow embedding of `src/cf-reviews-worker/src/index.js`: a Cloudflare-style
worker exposing `GET /reviews`, which refreshes an OAuth token, fetches pages of
reviews from the Google Business Profile (GBP) listing endpoint, normalizes and
sorts them, and returns at most `limit` records.

Modelling conventions:
* JS strings are `String`; a possibly-`undefined`/`null` string is `Option String`.
* JS truthiness on strings: `undefined`, `null` and `""` are falsy.
* The raw `createTime` field is modelled as the already-parsed calendar instant
  in milliseconds since the Unix epoch (`Option Int`; `none` when the field is
  absent).  `new Date(s).getTime()` may be negative for pre-1970 instants.
* Network effects are made explicit: the upstream OAuth response and the
  upstream page responses are inputs, and each function returns the list of
  network requests it issued (`NetEvent`) alongside its result.
* Thrown `Error`s become an error inductive `WError`; `WError.message` gives
  the exact JS message string.
-/

namespace Worker

/-- JS truthiness of a possibly-absent string: `undefined`/`null`/`""` are falsy. -/
def jsTruthy (o : Option String) : Bool :=
  match o with
  | some s => s ≠ ""
  | none => false

/-- JS `x || d` producing a string: falsy `x` falls back to the default `d`. -/
def jsOrStr (o : Option String) (d : String) : String :=
  if jsTruthy o then o.getD "" else d

/-- JS `x || y` where both sides may be `undefined` (e.g. query param `||` env var). -/
def jsOrOpt (a b : Option String) : Option String :=
  if jsTruthy a then a else b

/-- JS `x || null`: a falsy string becomes `null`. -/
def jsOrNull (o : Option String) : Option String :=
  if jsTruthy o then o else none

/-- Contiguous-sublist test on lists (the haystack is the first argument). -/
def containsSub (hay pat : List Char) : Bool :=
  match hay with
  | [] => pat.isEmpty
  | c :: t => pat.isPrefixOf (c :: t) || containsSub t pat

/-- JS `s.includes(pat)`: substring containment. -/
def strIncludes (s pat : String) : Bool :=
  containsSub s.toList pat.toList

/-- Numeric value of a list of decimal digit characters. -/
def digitsVal (ds : List Char) : Int :=
  ds.foldl (fun a c => a * 10 + (Int.ofNat (c.toNat - Char.toNat '0'))) 0

/-- Models `Math.trunc(Number(value))` for a JS string: `none` stands for a
non-finite conversion result (`NaN`/`Infinity`, on which `clampInt` returns its
minimum).  The model covers JS decimal literals — optional surrounding
whitespace, optional sign, digits with an optional fraction part (truncation
toward zero discards the fraction) — and the empty/whitespace-only string,
which JS converts to `0`.  Exotic forms (exponents, hex, `"Infinity"`) are
outside the model and map to `none`. -/
def jsToNumberTrunc (value : String) : Option Int :=
  let cs := ((value.toList.dropWhile Char.isWhitespace).reverse.dropWhile
    Char.isWhitespace).reverse
  if cs.isEmpty then some 0
  else
    let signed : Int × List Char :=
      match cs with
      | '-' :: t => (-1, t)
      | '+' :: t => (1, t)
      | _ => (1, cs)
    let ds := signed.2.takeWhile Char.isDigit
    let rest := signed.2.dropWhile Char.isDigit
    match rest with
    | [] => if ds.isEmpty then none else some (signed.1 * digitsVal ds)
    | '.' :: rest2 =>
      let fs := rest2.takeWhile Char.isDigit
      let rest3 := rest2.dropWhile Char.isDigit
      if rest3.isEmpty && !(ds.isEmpty && fs.isEmpty) then
        some (signed.1 * digitsVal ds)
      else none
    | _ => none

/-- `clampInt(value, min, max)` from the source: converts the string with JS
`Number`, returns `min` on a non-finite result, otherwise clamps the truncated
value into `[min, max]`. -/
def clampInt (value : String) (mn mx : Int) : Int :=
  match jsToNumberTrunc value with
  | none => mn
  | some n => max mn (min mx n)

/-- Raw reviewer object (`r.reviewer`). -/
structure Reviewer where
  displayName : Option String
  profilePhotoUrl : Option String
  deriving Repr, DecidableEq

/-- Raw review record as returned by the GBP listing endpoint.  `createTime`
is the parsed calendar instant in milliseconds since the epoch (see header). -/
structure RawReview where
  reviewId : Option String
  reviewer : Option Reviewer
  starRating : Option String
  comment : Option String
  createTime : Option Int
  updateTime : Option String
  deriving Repr, DecidableEq

/-- The value of the JS expression `map[starRating] || 0`: either a plain
number, or a member inherited from `Object.prototype` (a built-in function —
or, for the key `__proto__`, the prototype object itself), identified here by
its property name. -/
inductive RatingValue where
  | num (n : Nat)
  | protoMember (name : String)
  deriving Repr, DecidableEq

/-- The property names every plain object literal inherits from
`Object.prototype` (ECMAScript, including the Annex B accessors).  Each of
these members is truthy, so `inherited || 0` yields the member, not `0`. -/
def objectPrototypeKeys : List String :=
  ["constructor", "hasOwnProperty", "isPrototypeOf", "propertyIsEnumerable",
   "toLocaleString", "toString", "valueOf", "__proto__", "__defineGetter__",
   "__defineSetter__", "__lookupGetter__", "__lookupSetter__"]

/-- Normalized output record built by `fetchLatestReviews`. -/
structure NormalizedReview where
  reviewId : Option String
  author_name : String
  profile_photo_url : String
  rating : RatingValue
  time : Int
  text : String
  createTime : Option Int
  updateTime : Option String
  deriving Repr, DecidableEq

/-- `starEnumToNumber` from the source: `map[starRating] || 0` over the
object literal `{ONE:1, TWO:2, THREE:3, FOUR:4, FIVE:5}`.  Property lookup on
an object literal falls back to the prototype chain: the five own keys yield
their table entries; an `Object.prototype` member name yields that inherited
truthy member, which survives `|| 0` and is returned as the rating; every
other key — and an absent label, whose lookup key is the string
`"undefined"` — yields `undefined`, and `|| 0` gives the number 0. -/
def starEnumToNumber (starRating : Option String) : RatingValue :=
  match starRating with
  | some "ONE" => .num 1
  | some "TWO" => .num 2
  | some "THREE" => .num 3
  | some "FOUR" => .num 4
  | some "FIVE" => .num 5
  | some s => if s ∈ objectPrototypeKeys then .protoMember s else .num 0
  | none => .num 0

/-- The per-record normalization performed inside `fetchLatestReviews`:
`Math.floor(createTime.getTime() / 1000)` is floor division of the millisecond
instant by 1000 (`Int.fdiv`), and an absent `createTime` yields `time = 0`. -/
def normalizeReview (r : RawReview) : NormalizedReview :=
  { reviewId := r.reviewId
    author_name := jsOrStr (r.reviewer.bind Reviewer.displayName) "Anonymous"
    profile_photo_url := jsOrStr (r.reviewer.bind Reviewer.profilePhotoUrl) ""
    rating := starEnumToNumber r.starRating
    time := match r.createTime with
      | some ms => Int.fdiv ms 1000
      | none => 0
    text := jsOrStr r.comment ""
    createTime := r.createTime
    updateTime := jsOrNull r.updateTime }

/-- The order of `normalized.sort((a, b) => (b.time || 0) - (a.time || 0))`:
`a` may precede `b` iff the comparator is `≤ 0`, i.e. `b.time ≤ a.time`
(`time` is always a number in the source, and `t || 0 = t` as a numeric value). -/
def descByTime (a b : NormalizedReview) : Prop :=
  b.time ≤ a.time

instance : DecidableRel descByTime := fun a b => Int.decLe b.time a.time

instance : IsTotal NormalizedReview descByTime :=
  ⟨fun a b => le_total b.time a.time⟩

instance : IsTrans NormalizedReview descByTime :=
  ⟨fun _ _ _ hab hbc => le_trans hbc hab⟩

/-- JS `Array.prototype.sort` is stable (ECMAScript 2019+), and with the
consistent comparator above every stable sorting algorithm produces the same
list; we embed it as stable insertion sort on the order of the comparator. -/
def sortNewestFirst (l : List NormalizedReview) : List NormalizedReview :=
  l.insertionSort descByTime

/-- Worker environment bindings (`env`): the three OAuth secrets, the default
account/location identifiers.  Every binding may be absent. -/
structure Env where
  GOOGLE_OAUTH_CLIENT_ID : Option String
  GOOGLE_OAUTH_CLIENT_SECRET : Option String
  GOOGLE_OAUTH_REFRESH_TOKEN : Option String
  GBP_ACCOUNT_ID : Option String
  GBP_LOCATION_ID : Option String
  deriving Repr, DecidableEq

/-- Upstream response to the OAuth token `POST` (`resp.ok`, `resp.status`,
the body text read on failure, and the `access_token` field of the JSON). -/
structure OAuthResp where
  ok : Bool
  status : Nat
  bodyText : String
  access_token : Option String
  deriving Repr, DecidableEq

/-- Upstream response to one reviews-listing page `GET`.  `reviews` models
`json.reviews || []` (already the empty list when the field is absent);
`nextPageToken` models `json.nextPageToken`. -/
structure PageResp where
  ok : Bool
  status : Nat
  bodyText : String
  reviews : List RawReview
  nextPageToken : Option String
  deriving Repr, DecidableEq

/-- One outbound network request issued by the pipeline.  `listPage` carries
the requested `pageSize`, the number of reviews accumulated when the request
was issued (ghost data, recorded for specification only), and the `pageToken`
query parameter actually sent (`none` when the token was falsy and therefore
omitted). -/
inductive NetEvent where
  | oauthToken
  | listPage (pageSize : Nat) (prior : Nat) (tok : Option String)
  deriving Repr, DecidableEq

/-- The errors thrown by the worker, one constructor per `throw new Error`
site; `WError.message` recovers the exact JS message string. -/
inductive WError where
  | missingSecrets
  | oauthHttp (status : Nat) (body : String)
  | oauthNoToken
  | missingIds
  | listHttp (status : Nat) (body : String)
  deriving Repr, DecidableEq

/-- The `err.message` string of each throw site in the source. -/
def WError.message : WError → String
  | .missingSecrets => "Missing OAuth secrets in Worker env."
  | .oauthHttp status body =>
      "OAuth token refresh failed: " ++ toString status ++ " " ++ body
  | .oauthNoToken => "OAuth token refresh returned no access_token."
  | .missingIds =>
      "Missing/placeholder accountId or locationId. Provide ?accountId=...&locationId=... or set Worker vars."
  | .listHttp status body =>
      "GBP reviews list failed: " ++ toString status ++ " " ++ body

/-- `getAccessToken(env)` from the source, with the behavior of the OAuth
endpoint
supplied as the input `oauth`.  Returns the result together with the list of
network requests issued: the secrets check (`!clientId || !clientSecret ||
!refreshToken`) throws before the network call, so its trace is empty. -/
def getAccessToken (env : Env) (oauth : OAuthResp) :
    Except WError String × List NetEvent :=
  if jsTruthy env.GOOGLE_OAUTH_CLIENT_ID && jsTruthy env.GOOGLE_OAUTH_CLIENT_SECRET
      && jsTruthy env.GOOGLE_OAUTH_REFRESH_TOKEN then
    if oauth.ok then
      if jsTruthy oauth.access_token then
        (.ok (oauth.access_token.getD ""), [.oauthToken])
      else (.error .oauthNoToken, [.oauthToken])
    else (.error (.oauthHttp oauth.status oauth.bodyText), [.oauthToken])
  else (.error .missingSecrets, [])

/-- The identifier precondition of `fetchLatestReviews`, i.e. the negation of
`!accountId || !locationId || accountId.includes("YOUR_") || locationId.includes("YOUR_")`. -/
def validIds (accountId locationId : Option String) : Bool :=
  jsTruthy accountId && jsTruthy locationId
    && !(strIncludes (accountId.getD "") "YOUR_")
    && !(strIncludes (locationId.getD "") "YOUR_")

/-- The page size requested when `acc` has been accumulated:
`Math.min(50, limit - all.length)`. -/
def reqSize (limit : Nat) (acc : List RawReview) : Nat :=
  min 50 (limit - acc.length)

/-- The `pageToken` parameter actually sent: set only `if (pageToken)`,
i.e. omitted (`none`) when the held token is falsy. -/
def sentTok (tok : Option String) : Option String :=
  if jsTruthy tok then tok else none

/-- The upstream response to page request number `i` issued from state
(`acc`, `tok`). -/
def pageAt (pages : Nat → Nat → Option String → PageResp) (limit : Nat)
    (i : Nat) (acc : List RawReview) (tok : Option String) : PageResp :=
  pages i (reqSize limit acc) (sentTok tok)

/-- The `while (all.length < limit)` pagination loop of `fetchLatestReviews`.
`pages i ps tok` is the upstream response to page request number `i`, which
asked for `pageSize = ps` and carried page token `tok` (`none` when omitted).
Each iteration requests `min(50, limit - all.length)` records, aborts on a
non-ok response, appends `json.reviews || []`, and breaks when the new
`nextPageToken` is falsy or the fetched page was empty. -/
def pagesLoop (pages : Nat → Nat → Option String → PageResp) (limit : Nat)
    (i : Nat) (acc : List RawReview) (tok : Option String) :
    Except WError (List RawReview) × List NetEvent :=
  if h : acc.length < limit then
    if (pageAt pages limit i acc tok).ok then
      if h2 : jsTruthy (pageAt pages limit i acc tok).nextPageToken = true ∧
          (pageAt pages limit i acc tok).reviews ≠ [] then
        ((pagesLoop pages limit (i + 1) (acc ++ (pageAt pages limit i acc tok).reviews)
            (pageAt pages limit i acc tok).nextPageToken).1,
          .listPage (reqSize limit acc) acc.length (sentTok tok) ::
            (pagesLoop pages limit (i + 1) (acc ++ (pageAt pages limit i acc tok).reviews)
              (pageAt pages limit i acc tok).nextPageToken).2)
      else (.ok (acc ++ (pageAt pages limit i acc tok).reviews),
        [.listPage (reqSize limit acc) acc.length (sentTok tok)])
    else (.error (.listHttp (pageAt pages limit i acc tok).status
        (pageAt pages limit i acc tok).bodyText),
      [.listPage (reqSize limit acc) acc.length (sentTok tok)])
  else (.ok acc, [])
termination_by limit - acc.length
decreasing_by
  simp only [List.length_append]
  exact Nat.sub_lt_sub_left h (Nat.lt_add_of_pos_right (List.length_pos.mpr h2.2))

/-- The one-step unfolding of `pagesLoop`, with plain conditionals. -/
theorem pagesLoop_eq (pages : Nat → Nat → Option String → PageResp) (limit : Nat)
    (i : Nat) (acc : List RawReview) (tok : Option String) :
    pagesLoop pages limit i acc tok =
      if acc.length < limit then
        if (pageAt pages limit i acc tok).ok then
          if jsTruthy (pageAt pages limit i acc tok).nextPageToken = true ∧
              (pageAt pages limit i acc tok).reviews ≠ [] then
            ((pagesLoop pages limit (i + 1) (acc ++ (pageAt pages limit i acc tok).reviews)
                (pageAt pages limit i acc tok).nextPageToken).1,
              .listPage (reqSize limit acc) acc.length (sentTok tok) ::
                (pagesLoop pages limit (i + 1) (acc ++ (pageAt pages limit i acc tok).reviews)
                  (pageAt pages limit i acc tok).nextPageToken).2)
          else (.ok (acc ++ (pageAt pages limit i acc tok).reviews),
            [.listPage (reqSize limit acc) acc.length (sentTok tok)])
        else (.error (.listHttp (pageAt pages limit i acc tok).status
            (pageAt pages limit i acc tok).bodyText),
          [.listPage (reqSize limit acc) acc.length (sentTok tok)])
      else (.ok acc, []) := by
  rw [pagesLoop]
  rfl

/-- `fetchLatestReviews(env, limit, accountId, locationId)` from the source:
token acquisition first, then the identifier precondition, then the pagination
loop, then `all.slice(0, limit)`, per-record normalization, and the
newest-first sort.  The upstream behaviors `oauth` and `pages` are inputs, and
the issued network requests are returned alongside the result. -/
def fetchLatestReviews (env : Env) (oauth : OAuthResp)
    (pages : Nat → Nat → Option String → PageResp) (limit : Nat)
    (accountId locationId : Option String) :
    Except WError (List NormalizedReview) × List NetEvent :=
  match getAccessToken env oauth with
  | (.error e, evs) => (.error e, evs)
  | (.ok _accessToken, evs) =>
    if validIds accountId locationId then
      match pagesLoop pages limit 0 [] none with
      | (.error e, evs2) => (.error e, evs ++ evs2)
      | (.ok all, evs2) =>
        (.ok (sortNewestFirst ((all.take limit).map normalizeReview)),
          evs ++ evs2)
    else (.error .missingIds, evs)

/-- An inbound request, reduced to the parts the handler inspects: the method,
the path, and the three query parameters (`none` when absent; note
`searchParams.get` returns `""`, not `null`, for a present-but-empty value). -/
structure Request where
  method : String
  path : String
  limitParam : Option String
  accountIdParam : Option String
  locationIdParam : Option String
  deriving Repr, DecidableEq

/-- Response bodies the handler can build. -/
inductive Body where
  | empty
  | text (s : String)
  | reviewsJson (rs : List NormalizedReview)
  | errorJson (msg : String)
  deriving Repr, DecidableEq

/-- A response, reduced to status, `Content-Type` header and body (the CORS
headers are attached unconditionally by `corsResponse` and carry no
per-request information). -/
structure Response where
  status : Nat
  contentType : Option String
  body : Body
  deriving Repr, DecidableEq

/-- The effective limit of a `/reviews` request:
`clampInt(url.searchParams.get("limit") ?? "10", 1, 50)` (as a `Nat`; the
clamp makes the value at least 1). -/
def effLimit (limitParam : Option String) : Nat :=
  (clampInt (limitParam.getD "10") 1 50).toNat

/-- The effective account identifier:
`url.searchParams.get("accountId") || env.GBP_ACCOUNT_ID`. -/
def effAccountId (req : Request) (env : Env) : Option String :=
  jsOrOpt req.accountIdParam env.GBP_ACCOUNT_ID

/-- The effective location identifier:
`url.searchParams.get("locationId") || env.GBP_LOCATION_ID`. -/
def effLocationId (req : Request) (env : Env) : Option String :=
  jsOrOpt req.locationIdParam env.GBP_LOCATION_ID

/-- The exported `fetch(request, env)` handler: `OPTIONS` (any path) → 204 with
no body; `/reviews` (any non-OPTIONS method — the method is not inspected) →
200 with the reviews JSON or 500 with the error message; anything else → 404
with the plain text `"Not found"`. -/
def workerFetch (req : Request) (env : Env) (oauth : OAuthResp)
    (pages : Nat → Nat → Option String → PageResp) : Response :=
  if req.method = "OPTIONS" then
    { status := 204, contentType := none, body := .empty }
  else if req.path = "/reviews" then
    match (fetchLatestReviews env oauth pages (effLimit req.limitParam)
        (effAccountId req env) (effLocationId req env)).1 with
    | .ok rs =>
      { status := 200, contentType := some "application/json; charset=utf-8",
        body := .reviewsJson rs }
    | .error e =>
      { status := 500, contentType := some "application/json; charset=utf-8",
        body := .errorJson e.message }
  else
    { status := 404, contentType := some "text/plain; charset=utf-8",
      body := .text "Not found" }

/-! ### Concrete fixtures used by witnesses and counterexamples -/

/-- A raw review with the given parsed creation instant (milliseconds). -/
def sampleRaw (t : Option Int) : RawReview :=
  { reviewId := some "r", reviewer := none, starRating := some "FIVE",
    comment := some "c", createTime := t, updateTime := none }

/-- An environment with all bindings configured. -/
def envAllSet : Env :=
  ⟨some "cid", some "secret", some "rtok", some "acct", some "loc"⟩

/-- A successful OAuth response carrying a token. -/
def oauthOk : OAuthResp := ⟨true, 200, "", some "tok"⟩

/-- An upstream that answers every page request with the same single page of
five reviews whose creation times are 1s..5s (ascending) and no continuation
token. -/
def pagesAsc5 : Nat → Nat → Option String → PageResp :=
  fun _ _ _ =>
    ⟨true, 200, "",
      [sampleRaw (some 1000), sampleRaw (some 2000), sampleRaw (some 3000),
       sampleRaw (some 4000), sampleRaw (some 5000)], none⟩

/-- An upstream returning one page holding a review with no creation time and
a review created five seconds before the epoch. -/
def pagesZeroNeg : Nat → Nat → Option String → PageResp :=
  fun _ _ _ => ⟨true, 200, "", [sampleRaw none, sampleRaw (some (-5000))], none⟩

/-- An upstream that always fills the requested page size and always supplies
a continuation token. -/
def pagesFull : Nat → Nat → Option String → PageResp :=
  fun _ ps _ => ⟨true, 200, "", List.replicate ps (sampleRaw (some 1000)), some "t"⟩

/-- An upstream that always answers with an empty page and a continuation
token (the inconsistent behavior called out by the spec). -/
def pagesEmptyTok : Nat → Nat → Option String → PageResp :=
  fun _ _ _ => ⟨true, 200, "", [], some "t"⟩

/-! ### Claims -/

/-- **C6** (counterexample): `map[starRating] || 0` consults the prototype
chain: for the label `"toString"` the lookup returns the inherited
`Object.prototype.toString` member — truthy, so `|| 0` passes it through —
and the rating is not the number 0, refuting "maps every other input to 0 — a
closed enumeration". -/
theorem c6_counterexample :
    starEnumToNumber (some "toString") = .protoMember "toString" ∧
    starEnumToNumber (some "toString") ≠ .num 0 ∧
    starEnumToNumber (some "constructor") ≠ .num 0 := by
  refine ⟨rfl, ?_, ?_⟩ <;> decide

/-- **C6** (amended): the five labels `ONE`..`FIVE` map to the numbers 1..5
and an absent label maps to 0; an unrecognized label maps to 0 *unless* it is
one of the property names inherited from `Object.prototype` (`constructor`,
`toString`, `hasOwnProperty`, `__proto__`, ...), in which case the lookup
returns the inherited truthy member instead of 0 — so the table is not a
fully closed enumeration. -/
theorem c6_star_rating_table_with_proto :
    (starEnumToNumber (some "ONE") = .num 1 ∧ starEnumToNumber (some "TWO") = .num 2 ∧
     starEnumToNumber (some "THREE") = .num 3 ∧ starEnumToNumber (some "FOUR") = .num 4 ∧
     starEnumToNumber (some "FIVE") = .num 5 ∧ starEnumToNumber none = .num 0) ∧
    (∀ s : String, s ∉ (["ONE", "TWO", "THREE", "FOUR", "FIVE"] : List String) →
      s ∉ objectPrototypeKeys → starEnumToNumber (some s) = .num 0) ∧
    (∀ s : String, s ∈ objectPrototypeKeys →
      starEnumToNumber (some s) = .protoMember s) := by
  refine ⟨⟨rfl, rfl, rfl, rfl, rfl, rfl⟩, fun s hs hp => ?_, fun s hp => ?_⟩
  · unfold starEnumToNumber
    split <;> simp_all
  · fin_cases hp <;> rfl

/-- Witness for `c6_star_rating_table_with_proto` at the unrecognized label
`"6"` and the inherited property name `"valueOf"`. -/
theorem c6_star_rating_table_with_proto_witness :
    ("6" ∉ (["ONE", "TWO", "THREE", "FOUR", "FIVE"] : List String)) ∧
    ("6" ∉ objectPrototypeKeys) ∧ starEnumToNumber (some "6") = .num 0 ∧
    ("valueOf" ∈ objectPrototypeKeys) ∧
    starEnumToNumber (some "valueOf") = .protoMember "valueOf" :=
  ⟨by decide, by decide,
   c6_star_rating_table_with_proto.2.1 "6" (by decide) (by decide),
   by decide,
   c6_star_rating_table_with_proto.2.2 "valueOf" (by decide)⟩

/-- **C4** (counterexample): the claim says an *absent* `limit` parameter gives
effective limit 1; in the code an absent parameter defaults to the string
`"10"` before clamping, so the effective limit is 10. -/
theorem c4_counterexample : effLimit none = 10 ∧ effLimit none ≠ 1 := by
  constructor <;> decide

/-- **C4** (amended): a present but non-numeric `limit` (non-finite after JS
`Number` conversion) silently becomes the minimum bound 1, while an *absent*
`limit` becomes the default 10. -/
theorem c4_limit_clamping (s : String) (h : jsToNumberTrunc s = none) :
    effLimit none = 10 ∧ effLimit (some s) = 1 := by
  refine ⟨by decide, ?_⟩
  simp [effLimit, clampInt, h]

/-- Witness for `c4_limit_clamping` at the non-numeric string `"abc"`. -/
theorem c4_limit_clamping_witness :
    jsToNumberTrunc "abc" = none ∧ (effLimit none = 10 ∧ effLimit (some "abc") = 1) :=
  ⟨by decide, c4_limit_clamping "abc" (by decide)⟩

/-- **C3** (counterexample): the handler checks only the path, not the method:
`POST /reviews` is served like `GET` (here: 200), and `OPTIONS` to a path
other than `/reviews` returns 204 — both contradict the claim that any request
with another path *or* a method other than GET/OPTIONS yields 404. -/
theorem c3_counterexample :
    (workerFetch ⟨"POST", "/reviews", some "2", some "a", some "l"⟩
        envAllSet oauthOk pagesAsc5).status = 200 ∧
    (workerFetch ⟨"POST", "/reviews", some "2", some "a", some "l"⟩
        envAllSet oauthOk pagesAsc5).status ≠ 404 ∧
    (workerFetch ⟨"OPTIONS", "/definitely-not-reviews", none, none, none⟩
        envAllSet oauthOk pagesAsc5).status = 204 := by
  refine ⟨?_, ?_, by decide⟩ <;>
    (simp [workerFetch, fetchLatestReviews, getAccessToken, envAllSet, oauthOk,
      jsTruthy, validIds, strIncludes, containsSub, effAccountId, effLocationId,
      jsOrOpt, pagesLoop, pageAt, reqSize, sentTok, pagesAsc5] <;> decide)

/-- **C3** (amended): every request whose method is not `OPTIONS` *and* whose
path is not `/reviews` gets the 404 plain-text `"Not found"` response; the
method is otherwise never inspected. -/
theorem c3_not_found (req : Request) (env : Env) (oauth : OAuthResp)
    (pages : Nat → Nat → Option String → PageResp)
    (h1 : req.method ≠ "OPTIONS") (h2 : req.path ≠ "/reviews") :
    workerFetch req env oauth pages =
      { status := 404, contentType := some "text/plain; charset=utf-8",
        body := .text "Not found" } := by
  simp [workerFetch, h1, h2]

/-- Witness for `c3_not_found` at `GET /foo`. -/
theorem c3_not_found_witness :
    ("GET" ≠ "OPTIONS") ∧ ("/foo" ≠ "/reviews") ∧
    workerFetch ⟨"GET", "/foo", none, none, none⟩ envAllSet oauthOk pagesAsc5 =
      { status := 404, contentType := some "text/plain; charset=utf-8",
        body := .text "Not found" } :=
  ⟨by decide, by decide,
    c3_not_found ⟨"GET", "/foo", none, none, none⟩ envAllSet oauthOk pagesAsc5
      (by decide) (by decide)⟩

/-- **C9**: `getAccessToken` fails with the configuration error when any of
the three secrets is absent (falsy), issuing no network request at all; and a
success response without an `access_token` field fails with the distinct
`oauthNoToken` error (after the one OAuth request), rather than returning a
token. -/
theorem c9_getAccessToken_guards (env : Env) (oauth : OAuthResp) :
    (jsTruthy env.GOOGLE_OAUTH_CLIENT_ID = false ∨
     jsTruthy env.GOOGLE_OAUTH_CLIENT_SECRET = false ∨
     jsTruthy env.GOOGLE_OAUTH_REFRESH_TOKEN = false →
      getAccessToken env oauth = (.error .missingSecrets, [])) ∧
    (jsTruthy env.GOOGLE_OAUTH_CLIENT_ID = true →
     jsTruthy env.GOOGLE_OAUTH_CLIENT_SECRET = true →
     jsTruthy env.GOOGLE_OAUTH_REFRESH_TOKEN = true →
     oauth.ok = true → jsTruthy oauth.access_token = false →
      getAccessToken env oauth = (.error .oauthNoToken, [.oauthToken])) ∧
    (WError.oauthNoToken ≠ WError.missingSecrets ∧
      WError.oauthNoToken.message ≠ WError.missingSecrets.message) := by
  refine ⟨fun h => ?_, fun h1 h2 h3 h4 h5 => ?_, by decide, by decide⟩
  · rcases h with h | h | h <;> simp [getAccessToken, h]
  · simp [getAccessToken, h1, h2, h3, h4, h5]

/-- Witness for `c9_getAccessToken_guards`: a missing refresh token
short-circuits, and a tokenless success response errors distinctly. -/
theorem c9_getAccessToken_guards_witness :
    getAccessToken ⟨some "cid", some "secret", none, some "a", some "l"⟩ oauthOk =
      (.error .missingSecrets, []) ∧
    getAccessToken envAllSet ⟨true, 200, "", none⟩ =
      (.error .oauthNoToken, [.oauthToken]) :=
  ⟨(c9_getAccessToken_guards ⟨some "cid", some "secret", none, some "a", some "l"⟩
      oauthOk).1 (by decide),
   (c9_getAccessToken_guards envAllSet ⟨true, 200, "", none⟩).2.1
      (by decide) (by decide) (by decide) (by decide) (by decide)⟩

/-! ### Lemmas about the pagination loop and the pipeline -/

/-- Every error produced by the pagination loop is a `listHttp` error. -/
theorem pagesLoop_error_shape (pages : Nat → Nat → Option String → PageResp)
    (limit : Nat) :
    ∀ i acc tok e, (pagesLoop pages limit i acc tok).1 = .error e →
      ∃ st b, e = .listHttp st b := by
  suffices H : ∀ n i acc tok e, limit - acc.length ≤ n →
      (pagesLoop pages limit i acc tok).1 = .error e →
      ∃ st b, e = .listHttp st b by
    intro i acc tok e
    exact H (limit - acc.length) i acc tok e le_rfl
  intro n
  induction n with
  | zero =>
    intro i acc tok e hn hres
    rw [pagesLoop_eq, if_neg (by omega)] at hres
    simp at hres
  | succ n ih =>
    intro i acc tok e hn hres
    rw [pagesLoop_eq] at hres
    by_cases h : acc.length < limit
    · rw [if_pos h] at hres
      by_cases hok : (pageAt pages limit i acc tok).ok = true
      · rw [if_pos hok] at hres
        by_cases h2 : jsTruthy (pageAt pages limit i acc tok).nextPageToken = true ∧
            (pageAt pages limit i acc tok).reviews ≠ []
        · rw [if_pos h2] at hres
          have hlen : 0 < (pageAt pages limit i acc tok).reviews.length :=
            List.length_pos.mpr h2.2
          exact ih (i + 1) _ _ e (by simp only [List.length_append]; omega) hres
        · rw [if_neg h2] at hres
          simp at hres
      · rw [if_neg hok] at hres
        exact ⟨(pageAt pages limit i acc tok).status,
          (pageAt pages limit i acc tok).bodyText, by simpa using hres.symm⟩
    · rw [if_neg h] at hres
      simp at hres

/-- The loop issues at most `limit - acc.length` page requests (so at most
`limit` from the initial empty state): every continued iteration accumulates
at least one review. -/
theorem pagesLoop_numReq_le (pages : Nat → Nat → Option String → PageResp)
    (limit : Nat) :
    ∀ i acc tok, (pagesLoop pages limit i acc tok).2.length ≤ limit - acc.length := by
  suffices H : ∀ n i acc tok, limit - acc.length ≤ n →
      (pagesLoop pages limit i acc tok).2.length ≤ limit - acc.length by
    intro i acc tok
    exact H (limit - acc.length) i acc tok le_rfl
  intro n
  induction n with
  | zero =>
    intro i acc tok hn
    rw [pagesLoop_eq, if_neg (by omega)]
    simp
  | succ n ih =>
    intro i acc tok hn
    rw [pagesLoop_eq]
    by_cases h : acc.length < limit
    · rw [if_pos h]
      by_cases hok : (pageAt pages limit i acc tok).ok = true
      · rw [if_pos hok]
        by_cases h2 : jsTruthy (pageAt pages limit i acc tok).nextPageToken = true ∧
            (pageAt pages limit i acc tok).reviews ≠ []
        · rw [if_pos h2]
          have hlen : 0 < (pageAt pages limit i acc tok).reviews.length :=
            List.length_pos.mpr h2.2
          have hrec := ih (i + 1) (acc ++ (pageAt pages limit i acc tok).reviews)
            (pageAt pages limit i acc tok).nextPageToken
            (by simp only [List.length_append]; omega)
          simp only [List.length_cons, List.length_append] at hrec ⊢
          omega
        · rw [if_neg h2]
          simp only [List.length_cons, List.length_nil]
          omega
      · rw [if_neg hok]
        simp only [List.length_cons, List.length_nil]
        omega
    · rw [if_neg h]
      simp

/-- Every page request recorded in the loop trace asked for exactly
`min(50, limit - prior)` records, where `prior` is the accumulated count when
the request was issued — and requests are only issued while `prior < limit`. -/
theorem pagesLoop_listPage_shape (pages : Nat → Nat → Option String → PageResp)
    (limit : Nat) :
    ∀ i acc tok ps prior t,
      NetEvent.listPage ps prior t ∈ (pagesLoop pages limit i acc tok).2 →
      ps = min 50 (limit - prior) ∧ prior < limit := by
  suffices H : ∀ n i acc tok ps prior t, limit - acc.length ≤ n →
      NetEvent.listPage ps prior t ∈ (pagesLoop pages limit i acc tok).2 →
      ps = min 50 (limit - prior) ∧ prior < limit by
    intro i acc tok ps prior t
    exact H (limit - acc.length) i acc tok ps prior t le_rfl
  intro n
  induction n with
  | zero =>
    intro i acc tok ps prior t hn hmem
    rw [pagesLoop_eq, if_neg (by omega)] at hmem
    simp at hmem
  | succ n ih =>
    intro i acc tok ps prior t hn hmem
    rw [pagesLoop_eq] at hmem
    by_cases h : acc.length < limit
    · rw [if_pos h] at hmem
      by_cases hok : (pageAt pages limit i acc tok).ok = true
      · rw [if_pos hok] at hmem
        by_cases h2 : jsTruthy (pageAt pages limit i acc tok).nextPageToken = true ∧
            (pageAt pages limit i acc tok).reviews ≠ []
        · rw [if_pos h2] at hmem
          simp only [List.mem_cons] at hmem
          rcases hmem with hmem | hmem
          · obtain ⟨hps, hprior, -⟩ := NetEvent.listPage.inj hmem
            subst hps hprior
            exact ⟨rfl, h⟩
          · have hlen : 0 < (pageAt pages limit i acc tok).reviews.length :=
              List.length_pos.mpr h2.2
            exact ih (i + 1) _ _ ps prior t (by simp only [List.length_append]; omega) hmem
        · rw [if_neg h2] at hmem
          simp only [List.mem_singleton] at hmem
          obtain ⟨hps, hprior, -⟩ := NetEvent.listPage.inj hmem
          subst hps hprior
          exact ⟨rfl, h⟩
      · rw [if_neg hok] at hmem
        simp only [List.mem_singleton] at hmem
        obtain ⟨hps, hprior, -⟩ := NetEvent.listPage.inj hmem
        subst hps hprior
        exact ⟨rfl, h⟩
    · rw [if_neg h] at hmem
      simp at hmem

/-- Under normal upstream behavior — every page succeeds, fills exactly the
requested page size and carries a continuation token — the loop issues at most
`ceil((limit - acc.length)/50)` page requests. -/
theorem pagesLoop_numReq_full (pages : Nat → Nat → Option String → PageResp)
    (limit : Nat)
    (hfull : ∀ j ps t, (pages j ps t).ok = true ∧
      (pages j ps t).reviews.length = ps ∧
      jsTruthy (pages j ps t).nextPageToken = true) :
    ∀ i acc tok, (pagesLoop pages limit i acc tok).2.length ≤
      (limit - acc.length + 49) / 50 := by
  suffices H : ∀ n i acc tok, limit - acc.length ≤ n →
      (pagesLoop pages limit i acc tok).2.length ≤ (limit - acc.length + 49) / 50 by
    intro i acc tok
    exact H (limit - acc.length) i acc tok le_rfl
  intro n
  induction n with
  | zero =>
    intro i acc tok hn
    rw [pagesLoop_eq, if_neg (by omega)]
    simp
  | succ n ih =>
    intro i acc tok hn
    rw [pagesLoop_eq]
    by_cases h : acc.length < limit
    · have hok : (pageAt pages limit i acc tok).ok = true :=
        (hfull i (reqSize limit acc) (sentTok tok)).1
      have hlen : (pageAt pages limit i acc tok).reviews.length = reqSize limit acc :=
        (hfull i (reqSize limit acc) (sentTok tok)).2.1
      have htok : jsTruthy (pageAt pages limit i acc tok).nextPageToken = true :=
        (hfull i (reqSize limit acc) (sentTok tok)).2.2
      rw [if_pos h, if_pos hok]
      have hps : 0 < reqSize limit acc := by
        simp only [reqSize]
        omega
      have hne : (pageAt pages limit i acc tok).reviews ≠ [] := by
        intro hnil
        rw [hnil] at hlen
        simp only [List.length_nil] at hlen
        omega
      rw [if_pos ⟨htok, hne⟩]
      have hrec := ih (i + 1) (acc ++ (pageAt pages limit i acc tok).reviews)
        (pageAt pages limit i acc tok).nextPageToken
        (by simp only [List.length_append, hlen, reqSize]; omega)
      simp only [List.length_cons, List.length_append, hlen, reqSize] at hrec ⊢
      omega
    · rw [if_neg h]
      simp

/-- If the upstream answers with a successful empty page — even alongside a
nonempty continuation token — the loop stops after that single request. -/
theorem pagesLoop_empty_page (pages : Nat → Nat → Option String → PageResp)
    (limit : Nat)
    (hempty : ∀ j ps t, (pages j ps t).ok = true ∧ (pages j ps t).reviews = []) :
    ∀ i acc tok, acc.length < limit →
      (pagesLoop pages limit i acc tok).2.length = 1 := by
  intro i acc tok h
  have hok : (pageAt pages limit i acc tok).ok = true :=
    (hempty i (reqSize limit acc) (sentTok tok)).1
  have hnil : (pageAt pages limit i acc tok).reviews = [] :=
    (hempty i (reqSize limit acc) (sentTok tok)).2
  rw [pagesLoop_eq, if_pos h, if_pos hok, if_neg (by simp [hnil])]
  rfl

/-- If no fetched page holds more reviews than requested, the accumulated list
never exceeds `limit`. -/
theorem pagesLoop_acc_bound (pages : Nat → Nat → Option String → PageResp)
    (limit : Nat)
    (hsize : ∀ j ps t, (pages j ps t).reviews.length ≤ ps) :
    ∀ i acc tok all, acc.length ≤ limit →
      (pagesLoop pages limit i acc tok).1 = .ok all → all.length ≤ limit := by
  suffices H : ∀ n i acc tok all, limit - acc.length ≤ n → acc.length ≤ limit →
      (pagesLoop pages limit i acc tok).1 = .ok all → all.length ≤ limit by
    intro i acc tok all
    exact H (limit - acc.length) i acc tok all le_rfl
  intro n
  induction n with
  | zero =>
    intro i acc tok all hn hle hres
    rw [pagesLoop_eq, if_neg (by omega)] at hres
    simp at hres
    subst hres
    exact hle
  | succ n ih =>
    intro i acc tok all hn hle hres
    rw [pagesLoop_eq] at hres
    by_cases h : acc.length < limit
    · rw [if_pos h] at hres
      by_cases hok : (pageAt pages limit i acc tok).ok = true
      · rw [if_pos hok] at hres
        have hacc2 : (acc ++ (pageAt pages limit i acc tok).reviews).length ≤ limit := by
          have hsz : (pageAt pages limit i acc tok).reviews.length ≤ reqSize limit acc :=
            hsize i (reqSize limit acc) (sentTok tok)
          simp only [List.length_append]
          simp only [reqSize] at hsz
          omega
        by_cases h2 : jsTruthy (pageAt pages limit i acc tok).nextPageToken = true ∧
            (pageAt pages limit i acc tok).reviews ≠ []
        · rw [if_pos h2] at hres
          have hlen : 0 < (pageAt pages limit i acc tok).reviews.length :=
            List.length_pos.mpr h2.2
          exact ih (i + 1) _ _ all (by simp only [List.length_append]; omega) hacc2 hres
        · rw [if_neg h2] at hres
          simp at hres
          subst hres
          exact hacc2
      · rw [if_neg hok] at hres
        simp at hres
    · rw [if_neg h] at hres
      simp at hres
      subst hres
      exact hle

/-- Every event in the trace of `getAccessToken` is the OAuth token request. -/
theorem getAccessToken_events (env : Env) (oauth : OAuthResp) :
    ∀ ev ∈ (getAccessToken env oauth).2, ev = NetEvent.oauthToken := by
  unfold getAccessToken
  split_ifs <;> simp

/-- With all three secrets present, `getAccessToken` issues exactly the one
OAuth token request. -/
theorem getAccessToken_trace_of_secrets (env : Env) (oauth : OAuthResp)
    (h1 : jsTruthy env.GOOGLE_OAUTH_CLIENT_ID = true)
    (h2 : jsTruthy env.GOOGLE_OAUTH_CLIENT_SECRET = true)
    (h3 : jsTruthy env.GOOGLE_OAUTH_REFRESH_TOKEN = true) :
    (getAccessToken env oauth).2 = [NetEvent.oauthToken] := by
  unfold getAccessToken
  rw [if_pos (by rw [h1, h2, h3]; rfl)]
  split_ifs <;> rfl

/-- A successful run of `fetchLatestReviews` is exactly: a successful loop run
producing an accumulated list `all`, then `all.slice(0, limit)`, per-record
normalization, and the newest-first sort. -/
theorem fetch_ok_shape (env : Env) (oauth : OAuthResp)
    (pages : Nat → Nat → Option String → PageResp) (limit : Nat)
    (aid lid : Option String) (rs : List NormalizedReview)
    (hres : (fetchLatestReviews env oauth pages limit aid lid).1 = .ok rs) :
    ∃ all evs, pagesLoop pages limit 0 [] none = (.ok all, evs) ∧
      rs = sortNewestFirst ((all.take limit).map normalizeReview) := by
  unfold fetchLatestReviews at hres
  split at hres
  · simp at hres
  · rename_i tk evs heq
    split at hres
    · split at hres
      · simp at hres
      · rename_i all evs2 heq2
        simp only [Except.ok.injEq] at hres
        exact ⟨all, evs2, heq2, hres.symm⟩
    · simp at hres

/-- The result of `fetchLatestReviews` when the identifier precondition
fails: the token-acquisition outcome decides the error, the trace is exactly
the trace of `getAccessToken`, and no listing request is ever issued. -/
theorem fetch_invalid_ids (env : Env) (oauth : OAuthResp)
    (pages : Nat → Nat → Option String → PageResp) (limit : Nat)
    (aid lid : Option String) (h : validIds aid lid = false) :
    (fetchLatestReviews env oauth pages limit aid lid).1 =
      .error (match (getAccessToken env oauth).1 with
        | .error e => e
        | .ok _ => .missingIds) ∧
    (fetchLatestReviews env oauth pages limit aid lid).2 =
      (getAccessToken env oauth).2 := by
  unfold fetchLatestReviews
  rcases hga : getAccessToken env oauth with ⟨r, evs⟩
  rcases r with e | tk <;> simp [hga, h]

/-- **C10**: a present-but-empty `accountId`/`locationId` query parameter is
falsy, so the handler substitutes the corresponding environment default; and
(once token acquisition has succeeded) the identifier configuration error is
raised exactly when the resulting identifier pair is missing/placeholder
(`validIds` false). -/
theorem c10_empty_param_env_fallback (req : Request) (env : Env) :
    (req.accountIdParam = some "" → effAccountId req env = env.GBP_ACCOUNT_ID) ∧
    (req.locationIdParam = some "" → effLocationId req env = env.GBP_LOCATION_ID) ∧
    (∀ oauth pages limit aid lid tk evs,
      getAccessToken env oauth = (.ok tk, evs) →
      ((fetchLatestReviews env oauth pages limit aid lid).1 = .error .missingIds ↔
        validIds aid lid = false)) := by
  refine ⟨fun h => ?_, fun h => ?_, fun oauth pages limit aid lid tk evs hga => ?_⟩
  · simp [effAccountId, jsOrOpt, h, jsTruthy]
  · simp [effLocationId, jsOrOpt, h, jsTruthy]
  · constructor
    · intro hres
      by_contra hv
      rw [Bool.not_eq_false] at hv
      rw [fetchLatestReviews] at hres
      rw [hga] at hres
      simp only [hv, if_true] at hres
      rcases hpl : pagesLoop pages limit 0 [] none with ⟨r2, evs2⟩
      rcases r2 with e | all
      · rw [hpl] at hres
        simp only [Except.error.injEq] at hres
        obtain ⟨st, b, hshape⟩ :=
          pagesLoop_error_shape pages limit 0 [] none e (by rw [hpl])
        rw [hshape] at hres
        cases hres
      · rw [hpl] at hres
        cases hres
    · intro hv
      have hfst := (fetch_invalid_ids env oauth pages limit aid lid hv).1
      rw [hga] at hfst
      exact hfst

/-- Witness for `c10_empty_param_env_fallback`: empty query parameters fall
back to the configured defaults, and with valid defaults no identifier error
is raised. -/
theorem c10_empty_param_env_fallback_witness :
    effAccountId ⟨"GET", "/reviews", none, some "", some ""⟩ envAllSet =
      envAllSet.GBP_ACCOUNT_ID ∧
    effLocationId ⟨"GET", "/reviews", none, some "", some ""⟩ envAllSet =
      envAllSet.GBP_LOCATION_ID ∧
    ((fetchLatestReviews envAllSet oauthOk pagesAsc5 3 (some "acct") (some "loc")).1 =
        .error .missingIds ↔ validIds (some "acct") (some "loc") = false) :=
  ⟨(c10_empty_param_env_fallback ⟨"GET", "/reviews", none, some "", some ""⟩
      envAllSet).1 rfl,
   (c10_empty_param_env_fallback ⟨"GET", "/reviews", none, some "", some ""⟩
      envAllSet).2.1 rfl,
   (c10_empty_param_env_fallback ⟨"GET", "/reviews", none, some "", some ""⟩
      envAllSet).2.2 oauthOk pagesAsc5 3 (some "acct") (some "loc") "tok"
      [.oauthToken] rfl⟩

/-- **C2** (counterexample): with all three secrets configured and a missing
identifier pair, the pipeline does fail with the identifier configuration
error — but only *after* performing the OAuth token network request, so the
claim "before any network call is performed" is false. -/
theorem c2_counterexample :
    (fetchLatestReviews envAllSet oauthOk pagesAsc5 10 none none).1 =
      .error .missingIds ∧
    (fetchLatestReviews envAllSet oauthOk pagesAsc5 10 none none).2 =
      [.oauthToken] ∧
    NetEvent.oauthToken ∈ (fetchLatestReviews envAllSet oauthOk pagesAsc5 10 none none).2 := by
  refine ⟨rfl, rfl, ?_⟩
  rw [show (fetchLatestReviews envAllSet oauthOk pagesAsc5 10 none none).2 =
    [NetEvent.oauthToken] from rfl]
  exact List.mem_singleton.mpr rfl

/-- **C2** (amended): with an empty/placeholder identifier pair the pipeline
always fails and never issues a listing request, but the OAuth token request
*is* issued first whenever the three secrets are present: the identifier check
happens after token acquisition, not before every network call. -/
theorem c2_ids_fail_before_listing (env : Env) (oauth : OAuthResp)
    (pages : Nat → Nat → Option String → PageResp) (limit : Nat)
    (aid lid : Option String) (h : validIds aid lid = false) :
    (∀ rs, (fetchLatestReviews env oauth pages limit aid lid).1 ≠ .ok rs) ∧
    (∀ ps prior t, NetEvent.listPage ps prior t ∉
      (fetchLatestReviews env oauth pages limit aid lid).2) ∧
    (jsTruthy env.GOOGLE_OAUTH_CLIENT_ID = true →
     jsTruthy env.GOOGLE_OAUTH_CLIENT_SECRET = true →
     jsTruthy env.GOOGLE_OAUTH_REFRESH_TOKEN = true →
      (fetchLatestReviews env oauth pages limit aid lid).2 = [.oauthToken]) := by
  obtain ⟨hfst, hsnd⟩ := fetch_invalid_ids env oauth pages limit aid lid h
  refine ⟨fun rs hok => ?_, fun ps prior t hmem => ?_, fun h1 h2 h3 => ?_⟩
  · rw [hfst] at hok
    cases hok
  · rw [hsnd] at hmem
    have := getAccessToken_events env oauth _ hmem
    cases this
  · rw [hsnd]
    exact getAccessToken_trace_of_secrets env oauth h1 h2 h3

/-- Witness for `c2_ids_fail_before_listing` at a concrete placeholder
identifier. -/
theorem c2_ids_fail_before_listing_witness :
    validIds (some "YOUR_ACCOUNT_ID") (some "loc") = false ∧
    (∀ rs, (fetchLatestReviews envAllSet oauthOk pagesAsc5 10
      (some "YOUR_ACCOUNT_ID") (some "loc")).1 ≠ .ok rs) ∧
    (fetchLatestReviews envAllSet oauthOk pagesAsc5 10
      (some "YOUR_ACCOUNT_ID") (some "loc")).2 = [.oauthToken] :=
  ⟨by decide,
   (c2_ids_fail_before_listing envAllSet oauthOk pagesAsc5 10
      (some "YOUR_ACCOUNT_ID") (some "loc") (by decide)).1,
   (c2_ids_fail_before_listing envAllSet oauthOk pagesAsc5 10
      (some "YOUR_ACCOUNT_ID") (some "loc") (by decide)).2.2 rfl rfl rfl⟩

/-- **C5** (counterexample): the sort is purely numeric-descending on the
epoch, with no special casing of `0`; a review with no creation time (epoch
`0`) sorts *before* a review created before 1970 (negative epoch, here `-5`
from `createTime` instant `-5000 ms`), so "every review with creation epoch 0
appears after all reviews with nonzero creation epoch" fails. -/
theorem c5_counterexample :
    ((fetchLatestReviews envAllSet oauthOk pagesZeroNeg 2 (some "a") (some "l")).1.map
      (fun rs => rs.map NormalizedReview.time)) = .ok [0, -5] ∧
    ¬ (([0, -5] : List Int).Pairwise (fun a b => a = 0 → b = 0)) := by
  refine ⟨?_, by decide⟩
  simp [fetchLatestReviews, getAccessToken, envAllSet, oauthOk, jsTruthy,
    validIds, strIncludes, containsSub, pagesLoop, pageAt, reqSize, sentTok,
    pagesZeroNeg] <;> rfl

/-- **C5** (amended): every successful output is sorted by weakly decreasing
creation epoch, and consequently every review with creation epoch 0 appears
after all reviews with *positive* creation epoch (a review whose parsed
creation instant is negative — before 1970 — sorts after the epoch-0
reviews, not before). -/
theorem c5_output_sorted_desc (env : Env) (oauth : OAuthResp)
    (pages : Nat → Nat → Option String → PageResp) (limit : Nat)
    (aid lid : Option String) (rs : List NormalizedReview)
    (hres : (fetchLatestReviews env oauth pages limit aid lid).1 = .ok rs) :
    rs.Pairwise (fun a b => b.time ≤ a.time) ∧
    rs.Pairwise (fun a b => a.time = 0 → b.time ≤ 0) := by
  obtain ⟨all, evs, -, hrs⟩ := fetch_ok_shape env oauth pages limit aid lid rs hres
  subst hrs
  have hs : (sortNewestFirst ((all.take limit).map normalizeReview)).Pairwise descByTime :=
    List.sorted_insertionSort descByTime ((all.take limit).map normalizeReview)
  exact ⟨hs, hs.imp fun hab h0 => by rw [descByTime, h0] at hab; exact hab⟩

/-- A normalized review as produced from `sampleRaw (some (t * 1000))`. -/
def sampleNorm (t : Int) : NormalizedReview :=
  { reviewId := some "r", author_name := "Anonymous", profile_photo_url := "",
    rating := .num 5, time := t, text := "c", createTime := some (t * 1000),
    updateTime := none }

/-- Witness for `c5_output_sorted_desc` on a concrete successful run. -/
theorem c5_output_sorted_desc_witness :
    ([sampleNorm 3, sampleNorm 2, sampleNorm 1].Pairwise
      (fun a b => b.time ≤ a.time)) ∧
    ([sampleNorm 3, sampleNorm 2, sampleNorm 1].Pairwise
      (fun a b => a.time = 0 → b.time ≤ 0)) :=
  c5_output_sorted_desc envAllSet oauthOk pagesAsc5 3 (some "a") (some "l")
    [sampleNorm 3, sampleNorm 2, sampleNorm 1]
    (by simp [fetchLatestReviews, getAccessToken, envAllSet, oauthOk, jsTruthy,
      validIds, strIncludes, containsSub, pagesLoop, pageAt, reqSize, sentTok,
      pagesAsc5] <;> rfl)

/-- Every listing request in the trace of `fetchLatestReviews` comes from the
pagination loop (the token-acquisition part contributes only the OAuth
event). -/
theorem fetch_listPage_mem (env : Env) (oauth : OAuthResp)
    (pages : Nat → Nat → Option String → PageResp) (limit : Nat)
    (aid lid : Option String) (ps prior : Nat) (t : Option String)
    (hmem : NetEvent.listPage ps prior t ∈
      (fetchLatestReviews env oauth pages limit aid lid).2) :
    NetEvent.listPage ps prior t ∈ (pagesLoop pages limit 0 [] none).2 := by
  unfold fetchLatestReviews at hmem
  split at hmem
  · rename_i e evs heq
    have := getAccessToken_events env oauth _ (by rw [heq]; exact hmem)
    cases this
  · rename_i tk evs heq
    split at hmem
    · split at hmem
      · rename_i e evs2 heq2
        rw [List.mem_append] at hmem
        rcases hmem with hmem | hmem
        · have := getAccessToken_events env oauth _ (by rw [heq]; exact hmem)
          cases this
        · rw [heq2]
          exact hmem
      · rename_i all evs2 heq2
        rw [List.mem_append] at hmem
        rcases hmem with hmem | hmem
        · have := getAccessToken_events env oauth _ (by rw [heq]; exact hmem)
          cases this
        · rw [heq2]
          exact hmem
    · have := getAccessToken_events env oauth _ (by rw [heq]; exact hmem)
      cases this

/-- **C8**: for every effective limit in `[1, 50]` and every upstream
behavior, a successful run returns at most `limit` normalized reviews, and
every page request in the trace asked for exactly
`min(50, limit - accumulated-so-far)` records (hence at most that many), with
requests issued only while the accumulated count was below the limit. -/
theorem c8_count_le_limit_and_page_sizes (env : Env) (oauth : OAuthResp)
    (pages : Nat → Nat → Option String → PageResp) (limit : Nat)
    (aid lid : Option String) (h1 : 1 ≤ limit) (h50 : limit ≤ 50) :
    (∀ rs, (fetchLatestReviews env oauth pages limit aid lid).1 = .ok rs →
      rs.length ≤ limit) ∧
    (∀ ps prior t, NetEvent.listPage ps prior t ∈
        (fetchLatestReviews env oauth pages limit aid lid).2 →
      ps = min 50 (limit - prior) ∧ prior < limit) := by
  constructor
  · intro rs hres
    obtain ⟨all, evs, -, hrs⟩ := fetch_ok_shape env oauth pages limit aid lid rs hres
    subst hrs
    rw [sortNewestFirst, List.length_insertionSort, List.length_map,
      List.length_take]
    omega
  · intro ps prior t hmem
    exact pagesLoop_listPage_shape pages limit 0 [] none ps prior t
      (fetch_listPage_mem env oauth pages limit aid lid ps prior t hmem)

/-- Witness for `c8_count_le_limit_and_page_sizes` at limit 3 with a
five-review page: the output length is 3 ≤ 3, and the one issued page request
asked for exactly `min(50, 3 - 0) = 3` records. -/
theorem c8_count_le_limit_and_page_sizes_witness :
    ([sampleNorm 3, sampleNorm 2, sampleNorm 1].length ≤ 3) ∧
    ((3 : Nat) = min 50 (3 - 0) ∧ (0 : Nat) < 3) :=
  ⟨(c8_count_le_limit_and_page_sizes envAllSet oauthOk pagesAsc5 3
      (some "a") (some "l") (by decide) (by decide)).1
      [sampleNorm 3, sampleNorm 2, sampleNorm 1]
      (by simp [fetchLatestReviews, getAccessToken, envAllSet, oauthOk, jsTruthy,
        validIds, strIncludes, containsSub, pagesLoop, pageAt, reqSize, sentTok,
        pagesAsc5] <;> rfl),
   (c8_count_le_limit_and_page_sizes envAllSet oauthOk pagesAsc5 3
      (some "a") (some "l") (by decide) (by decide)).2 3 0 none
      (by simp [fetchLatestReviews, getAccessToken, envAllSet, oauthOk, jsTruthy,
        validIds, strIncludes, containsSub, pagesLoop, pageAt, reqSize, sentTok,
        pagesAsc5] <;> decide)⟩

/-- **C7**: the pagination loop always terminates — it issues at most `limit`
page requests in total; under normal upstream behavior (every page succeeds,
returns exactly the requested page size and carries a continuation token) it
issues at most `ceil(limit/50)` requests; when the upstream returns a
successful empty page — even with a nonempty continuation token — it stops
after that single request; it stops immediately once the accumulated count
reaches the limit; and a falsy continuation token or an empty fetched page
ends the loop in that same iteration. -/
theorem c7_loop_terminates_with_bounds
    (pages : Nat → Nat → Option String → PageResp) (limit : Nat) :
    ((pagesLoop pages limit 0 [] none).2.length ≤ limit) ∧
    ((∀ j ps t, (pages j ps t).ok = true ∧ (pages j ps t).reviews.length = ps ∧
        jsTruthy (pages j ps t).nextPageToken = true) →
      (pagesLoop pages limit 0 [] none).2.length ≤ (limit + 49) / 50) ∧
    ((∀ j ps t, (pages j ps t).ok = true ∧ (pages j ps t).reviews = []) →
      ∀ i acc tok, acc.length < limit →
        (pagesLoop pages limit i acc tok).2.length = 1) ∧
    (∀ i acc tok, limit ≤ acc.length →
      pagesLoop pages limit i acc tok = (.ok acc, [])) ∧
    (∀ i acc tok, acc.length < limit → (pageAt pages limit i acc tok).ok = true →
      (jsTruthy (pageAt pages limit i acc tok).nextPageToken = false ∨
        (pageAt pages limit i acc tok).reviews = []) →
      pagesLoop pages limit i acc tok =
        (.ok (acc ++ (pageAt pages limit i acc tok).reviews),
          [.listPage (reqSize limit acc) acc.length (sentTok tok)])) := by
  refine ⟨?_, fun hfull => ?_, fun hempty => pagesLoop_empty_page pages limit hempty,
    fun i acc tok h => ?_, fun i acc tok h hok hbrk => ?_⟩
  · simpa using pagesLoop_numReq_le pages limit 0 [] none
  · simpa using pagesLoop_numReq_full pages limit hfull 0 [] none
  · rw [pagesLoop_eq, if_neg (by omega)]
  · rw [pagesLoop_eq, if_pos h, if_pos hok, if_neg ?_]
    rintro ⟨htok, hne⟩
    rcases hbrk with hb | hb
    · rw [htok] at hb
      cases hb
    · exact hne hb

/-- Witness for `c7_loop_terminates_with_bounds`: always-full pages at limit
120 take at most `ceil(120/50) = 3` requests, and an empty-page upstream with
a continuation token stops after one request. -/
theorem c7_loop_terminates_with_bounds_witness :
    ((pagesLoop pagesFull 120 0 [] none).2.length ≤ 120) ∧
    ((pagesLoop pagesFull 120 0 [] none).2.length ≤ (120 + 49) / 50) ∧
    ((pagesLoop pagesEmptyTok 7 0 [] none).2.length = 1) :=
  ⟨(c7_loop_terminates_with_bounds pagesFull 120).1,
   (c7_loop_terminates_with_bounds pagesFull 120).2.1
      (fun j ps t => ⟨rfl, by simp [pagesFull], rfl⟩),
   (c7_loop_terminates_with_bounds pagesEmptyTok 7).2.2.1
      (fun j ps t => ⟨rfl, rfl⟩) 0 [] none (by decide)⟩

/-- Modelled from the spec: "the full accumulated set is sorted descending by
epoch ... and truncated to the first N" — i.e. sort the normalization of the
*whole* accumulated list first, then truncate.  (The source instead truncates
with `all.slice(0, limit)` *before* normalizing and sorting.) -/
def specSortThenTruncate (all : List RawReview) (limit : Nat) :
    List NormalizedReview :=
  (sortNewestFirst (all.map normalizeReview)).take limit

/-- **C1** (counterexample): at limit 3 with one page of 5 reviews in
ascending time order, the code returns the *first three accumulated* reviews
sorted descending (times `[3, 2, 1]`), while the claimed sort-then-truncate
pipeline would return the three newest (times `[5, 4, 3]`). -/
theorem c1_counterexample :
    ((fetchLatestReviews envAllSet oauthOk pagesAsc5 3 (some "a") (some "l")).1.map
      (fun rs => rs.map NormalizedReview.time)) = .ok [3, 2, 1] ∧
    ((pagesLoop pagesAsc5 3 0 [] none).1.map
      (fun all => (specSortThenTruncate all 3).map NormalizedReview.time)) =
      .ok [5, 4, 3] ∧
    ([3, 2, 1] : List Int) ≠ [5, 4, 3] := by
  refine ⟨?_, ?_, by decide⟩ <;>
    (simp [fetchLatestReviews, getAccessToken, envAllSet, oauthOk, jsTruthy,
      validIds, strIncludes, containsSub, pagesLoop, pageAt, reqSize, sentTok,
      pagesAsc5] <;> rfl)

/-- **C1** (amended): the code truncates the accumulated list to the first
`N` records *before* normalizing and sorting; whenever no fetched page holds
more reviews than requested (so the accumulated set never exceeds `N`), the
truncation is vacuous and the output does equal the specified
sort-the-full-set-then-truncate pipeline. -/
theorem c1_sort_truncate_order (env : Env) (oauth : OAuthResp)
    (pages : Nat → Nat → Option String → PageResp) (limit : Nat)
    (aid lid : Option String) (rs : List NormalizedReview)
    (all : List RawReview) (evs : List NetEvent)
    (hsize : ∀ j ps t, (pages j ps t).reviews.length ≤ ps)
    (hloop : pagesLoop pages limit 0 [] none = (.ok all, evs))
    (hres : (fetchLatestReviews env oauth pages limit aid lid).1 = .ok rs) :
    all.length ≤ limit ∧ rs = specSortThenTruncate all limit := by
  have hlen : all.length ≤ limit :=
    pagesLoop_acc_bound pages limit hsize 0 [] none all (by simp) (by rw [hloop])
  obtain ⟨all2, evs2, hloop2, hrs⟩ := fetch_ok_shape env oauth pages limit aid lid rs hres
  rw [hloop] at hloop2
  obtain ⟨heq1, -⟩ := Prod.mk.injEq .. ▸ hloop2
  obtain rfl : all = all2 := Except.ok.inj heq1
  refine ⟨hlen, ?_⟩
  rw [hrs, List.take_of_length_le hlen, specSortThenTruncate]
  have hle : (sortNewestFirst (all.map normalizeReview)).length ≤ limit := by
    rw [sortNewestFirst, List.length_insertionSort, List.length_map]
    exact hlen
  rw [List.take_of_length_le hle]

/-- Fixture for the `c1_sort_truncate_order` witness: an upstream that fills
exactly the requested page size and never paginates further. -/
def pagesSized : Nat → Nat → Option String → PageResp :=
  fun _ ps _ => ⟨true, 200, "", List.replicate ps (sampleRaw (some 1000)), none⟩

/-- Witness for `c1_sort_truncate_order` on a size-respecting upstream. -/
theorem c1_sort_truncate_order_witness :
    (List.replicate 3 (sampleRaw (some 1000))).length ≤ 3 ∧
    List.replicate 3 (sampleNorm 1) =
      specSortThenTruncate (List.replicate 3 (sampleRaw (some 1000))) 3 :=
  c1_sort_truncate_order envAllSet oauthOk pagesSized 3 (some "a") (some "l")
    (List.replicate 3 (sampleNorm 1)) (List.replicate 3 (sampleRaw (some 1000)))
    [.listPage 3 0 none]
    (fun j ps t => by simp [pagesSized])
    (by simp [pagesLoop, pageAt, reqSize, sentTok, pagesSized, jsTruthy])
    (by simp [fetchLatestReviews, getAccessToken, envAllSet, oauthOk, jsTruthy,
      validIds, strIncludes, containsSub, pagesLoop, pageAt, reqSize, sentTok,
      pagesSized] <;> rfl)

end Worker
